import Mathlib

/-!
Shallow embedding of the IASIP_gifs manifest tooling (`add_gif_cli.py`,
`generate_placeholders.py`, `validate_manifest.py`).

Files are modelled by an abstract content type: JSON text that parses to a
value `v` is `FileData.json v` (Python's `json.dump(..., indent=2)` is a
deterministic injective serialization, so the parsed value determines the
bytes and equality of `FileData` models byte-identity of file contents);
text that fails to parse is `FileData.invalid s`; binary content is
`FileData.bytes b`.  The filesystem is a partial map from path strings to
contents.  `sys.exit(1)` branches are modelled as typed errors paired with
the filesystem state at exit.
-/

/-- A JSON value (the subset the scripts manipulate). -/
inductive JVal where
  | null
  | bool (b : Bool)
  | num (n : Int)
  | str (s : String)
  | arr (elems : List JVal)
  | obj (fields : List (String × JVal))

/-- Abstract file contents. -/
inductive FileData where
  | json (v : JVal)
  | invalid (s : String)
  | bytes (b : List Nat)

/-- Filesystem state: path → contents (`none` = no such file). -/
abbrev FS : Type := String → Option FileData

/-- Write (create or overwrite) the file at `p`. -/
def fsSet (fs : FS) (p : String) (d : FileData) : FS :=
  fun q => if q = p then some d else fs q

/-- `os.remove p`. -/
def fsErase (fs : FS) (p : String) : FS :=
  fun q => if q = p then none else fs q

/-- The empty filesystem. -/
def fsEmpty : FS := fun _ => none

/-- One manifest record: `filename`, `description`, `tags`. -/
structure GifEntry where
  filename : String
  description : String
  tags : List String
deriving DecidableEq, Repr

/-- The JSON object a record is stored as (fixed key order, as the scripts
always build the dict in this order). -/
def encodeEntry (e : GifEntry) : JVal :=
  .obj [("filename", .str e.filename),
        ("description", .str e.description),
        ("tags", .arr (e.tags.map .str))]

/-- The manifest file's JSON value: a top-level array of record objects. -/
def encodeManifest (m : List GifEntry) : JVal :=
  .arr (m.map encodeEntry)

/-- Decode a list of JSON strings. -/
def decodeStrings : List JVal → Option (List String)
  | [] => some []
  | .str s :: rest => (decodeStrings rest).map (fun l => s :: l)
  | _ => none

/-- Decode one record object. -/
def decodeEntry : JVal → Option GifEntry
  | .obj [("filename", .str f), ("description", .str d), ("tags", .arr ts)] =>
      (decodeStrings ts).map (fun tags => ⟨f, d, tags⟩)
  | _ => none

/-- Decode a list of record objects. -/
def decodeEntries : List JVal → Option (List GifEntry)
  | [] => some []
  | v :: rest =>
      match decodeEntry v with
      | none => none
      | some e => (decodeEntries rest).map (fun l => e :: l)

/-- Decode a whole manifest value (must be an array of record objects). -/
def decodeManifest : JVal → Option (List GifEntry)
  | .arr xs => decodeEntries xs
  | _ => none

-- Configuration constants of add_gif_cli.py.

def GIFS_DIR : String := "gifs"

def MANIFEST_PATH : String := "gifs/index.json"

def SCHEMA_PATH : String := "gif-schema.json"

def MAX_FILE_SIZE_MB : Nat := 5

/-- The size ceiling in bytes (`MAX_FILE_SIZE_MB * 1024 * 1024`). -/
def maxSizeBytes : Nat := MAX_FILE_SIZE_MB * 1024 * 1024

/-- The staging path of a downloaded gif: `GIFS_DIR / local_filename`. -/
def gifPath (name : String) : String := GIFS_DIR ++ "/" ++ name

inductive LoadErr where
  | notFound (p : String)
  | malformed (p : String)
deriving DecidableEq, Repr

/-- `load_json` from add_gif_cli.py.  When the path is missing it creates an
empty manifest file and returns `[]` — but only for `MANIFEST_PATH`; any
other missing path is a fatal not-found exit.  Unparsable text is a fatal
exit (`json.JSONDecodeError`); binary content does not parse as JSON either.
Returns the result together with the filesystem (which the call may have
changed by creating the empty manifest). -/
def load_json (fs : FS) (p : String) : Except LoadErr JVal × FS :=
  match fs p with
  | none =>
      if p = MANIFEST_PATH then
        (.ok (.arr []), fsSet fs p (.json (.arr [])))
      else
        (.error (.notFound p), fs)
  | some (.json v) => (.ok v, fs)
  | some (.invalid _) => (.error (.malformed p), fs)
  | some (.bytes _) => (.error (.malformed p), fs)

/-- `_load_manifest` from generate_placeholders.py: never creates the file;
missing path, unparsable text and non-array JSON are all fatal exits. -/
def load_manifest (fs : FS) (p : String) : Except LoadErr (List JVal) :=
  match fs p with
  | none => .error (.notFound p)
  | some (.json (.arr xs)) => .ok xs
  | some (.json _) => .error (.malformed p)
  | some (.invalid _) => .error (.malformed p)
  | some (.bytes _) => .error (.malformed p)

structure HttpResponse where
  status : Nat
  contentType : Option String
  contentLength : Option Nat
  body : List Nat
deriving DecidableEq, Repr

inductive FetchErr where
  | network
  | wrongContentType
  | tooLarge
deriving DecidableEq, Repr

/-- `response.raise_for_status()` succeeds on non-error status codes. -/
def statusOk (r : HttpResponse) : Bool := r.status < 400

/-- Whether `needle` is a prefix of the second list. -/
def charsPrefixOf : List Char → List Char → Bool
  | [], _ => true
  | _ :: _, [] => false
  | a :: as, b :: bs => a == b && charsPrefixOf as bs

/-- Whether `needle` occurs as a contiguous run inside the haystack
(Python's `in` operator on strings). -/
def charsContains (needle : List Char) : List Char → Bool
  | [] => charsPrefixOf needle []
  | c :: rest => charsPrefixOf needle (c :: rest) || charsContains needle rest

/-- Python's `str.lower()` (the scripts only ever lower-case ASCII header
values and filenames, where it agrees with per-character lowering). -/
def strLower (s : String) : String :=
  String.mk (s.data.map Char.toLower)

/-- Python's `str.endswith(suffix)`. -/
def strEndsWith (s suffix : String) : Bool :=
  charsPrefixOf suffix.data.reverse s.data.reverse

/-- `'image/gif' in response.headers.get('Content-Type', '').lower()`. -/
def contentTypeOk (r : HttpResponse) : Bool :=
  charsContains "image/gif".data ((strLower (r.contentType.getD "")).data)

/-- `int(response.headers.get('Content-Length', 0))`: an absent header is
treated as a declared length of 0. -/
def declaredLength (r : HttpResponse) : Nat := r.contentLength.getD 0

/-- `download_gif` from add_gif_cli.py: check status, then content type, then
the declared content length against the 5 MB ceiling; only when all checks
pass is the body streamed to `outputPath`.  Every error branch exits with the
filesystem untouched. -/
def download_gif (resp : HttpResponse) (outputPath : String) (fs : FS) :
    Except FetchErr Unit × FS :=
  if ¬ statusOk resp then (.error .network, fs)
  else if ¬ contentTypeOk resp then (.error .wrongContentType, fs)
  else if declaredLength resp > maxSizeBytes then (.error .tooLarge, fs)
  else (.ok (), fsSet fs outputPath (.bytes resp.body))

/-- The cleanup statement shared by `validate_entry` and `update_manifest`:
`if Path(entry['filename']).exists(): os.remove(Path(entry['filename']))`.
Note the path is the bare filename relative to the working directory, not
`GIFS_DIR / filename` where `download_gif` wrote the asset. -/
def cleanupDownloaded (entry : GifEntry) (fs : FS) : FS :=
  if (fs entry.filename).isSome then fsErase fs entry.filename else fs

/-- The failure branch of `validate_entry` (schema rejection): print the
error, run the cleanup statement, exit.  Schema checking itself is done by
the external `jsonschema` library against `gif-schema.json` (not part of the
repository's sources); only the rollback effect of a rejection is modelled. -/
def validate_entry_fail (entry : GifEntry) (fs : FS) : FS :=
  cleanupDownloaded entry fs

/-- Sort key relation used by `manifest.sort(key=lambda x: x['filename'].lower())`. -/
def entryLE (a b : GifEntry) : Prop :=
  strLower a.filename ≤ strLower b.filename

instance : DecidableRel entryLE := fun a b =>
  inferInstanceAs (Decidable (strLower a.filename ≤ strLower b.filename))

/-- Python's `list.sort` is a stable sort by the key; a stable insertion sort
by the same key computes the same reordering. -/
def sortManifest (m : List GifEntry) : List GifEntry :=
  List.insertionSort entryLE m

inductive ManifestErr where
  | load (e : LoadErr)
  | typeErr
  | duplicateKey
deriving DecidableEq, Repr

/-- `update_manifest` from add_gif_cli.py: load the manifest, abort with the
duplicate-filename exit (case-sensitive comparison, after running the
cleanup statement) when the filename is taken, otherwise append the entry,
sort by lower-cased filename and rewrite the manifest file.  `typeErr`
stands for the uncaught exception the script would raise if the manifest
JSON is not an array of record objects. -/
def update_manifest (entry : GifEntry) (manifestPath : String) (fs : FS) :
    Except ManifestErr Unit × FS :=
  match load_json fs manifestPath with
  | (.error e, fs1) => (.error (.load e), fs1)
  | (.ok v, fs1) =>
      match decodeManifest v with
      | none => (.error .typeErr, fs1)
      | some m =>
          if m.any (fun g => g.filename == entry.filename) then
            (.error .duplicateKey, cleanupDownloaded entry fs1)
          else
            (.ok (), fsSet fs1 manifestPath
              (.json (encodeManifest (sortManifest (m ++ [entry])))))

/-- The manifest write in `update_manifest` (`open(path, "w")` followed by
`json.dump`) as the sequence of observable on-disk states: opening with mode
"w" truncates the file in place (empty text, not valid JSON), then the dump
writes the serialized manifest.  There is no temporary file and no rename. -/
def persistSteps (m : List GifEntry) (p : String) (fs : FS) : List FS :=
  [fsSet fs p (.invalid ""),
   fsSet (fsSet fs p (.invalid "")) p (.json (encodeManifest m))]

/-- The 43 bytes of the minimal 1x1 transparent GIF89a constant in
generate_placeholders.py. -/
def MINIMAL_GIF : List Nat :=
  [0x47, 0x49, 0x46, 0x38, 0x39, 0x61,
   0x01, 0x00, 0x01, 0x00, 0x80, 0x00, 0x00,
   0xff, 0xff, 0xff, 0x00, 0x00, 0x00,
   0x21, 0xf9, 0x04, 0x01, 0x00, 0x00, 0x00, 0x00,
   0x2c, 0x00, 0x00, 0x00, 0x00, 0x01, 0x00, 0x01, 0x00, 0x00,
   0x02, 0x02, 0x44, 0x01, 0x00, 0x3b]

/-- Constructor arguments of `PlaceholderGenerator`. -/
structure GenConfig where
  gifDir : String
  writeMinimal : Bool
deriving DecidableEq, Repr

/-- `_write_placeholder`: the minimal GIF bytes when `write_minimal`,
otherwise a touch, which creates an empty file (the generator only calls it
on paths that do not exist yet). -/
def placeholderData (cfg : GenConfig) : FileData :=
  if cfg.writeMinimal then .bytes MINIMAL_GIF else .bytes []

/-- `entry.get("filename")` on a JSON value (`None` when the entry is not an
object or lacks the key). -/
def getField (e : JVal) (k : String) : Option JVal :=
  match e with
  | .obj fields => fields.lookup k
  | _ => none

/-- The guard `if not filename or not filename.endswith('.gif')` of
`PlaceholderGenerator.generate`: `some f` when the entry carries a usable
filename, `none` when the entry is treated as malformed.  (A non-string,
non-null `filename` value would raise in the source; such values are
conflated with the malformed branch here, and no theorem below depends on
them.) -/
def entryFilename (e : JVal) : Option String :=
  match getField e "filename" with
  | some (.str f) => if f ≠ "" ∧ strEndsWith f ".gif" = true then some f else none
  | _ => none

/-- The target path `self.gif_dir / filename`. -/
def targetPath (cfg : GenConfig) (f : String) : String :=
  cfg.gifDir ++ "/" ++ f

/-- The outcome of one `generate` run.  The source's loop takes one of three
branches per entry: warn-and-continue (no usable filename), skip (target
exists), create (write placeholder, increment `created_count`).  `created`,
`skipped` and `malformed` record which branch each entry took, in order;
the value the source returns is `created.length` (see `generateCount`). -/
structure GenResult where
  created : List String
  skipped : List String
  malformed : List JVal
  fs : FS

/-- `PlaceholderGenerator.generate`: walk the manifest entries in order,
threading the filesystem. -/
def generate (cfg : GenConfig) : List JVal → FS → GenResult
  | [], fs => ⟨[], [], [], fs⟩
  | e :: rest, fs =>
      match entryFilename e with
      | none =>
          let r := generate cfg rest fs
          ⟨r.created, r.skipped, e :: r.malformed, r.fs⟩
      | some f =>
          if (fs (targetPath cfg f)).isSome then
            let r := generate cfg rest fs
            ⟨r.created, f :: r.skipped, r.malformed, r.fs⟩
          else
            let r := generate cfg rest
              (fsSet fs (targetPath cfg f) (placeholderData cfg))
            ⟨f :: r.created, r.skipped, r.malformed, r.fs⟩

/-- The integer `generate` actually returns (`created_count`). -/
def generateCount (cfg : GenConfig) (entries : List JVal) (fs : FS) : Nat :=
  (generate cfg entries fs).created.length

-- Shared concrete data for scenario theorems.

/-- A schema-shaped sample record. -/
def sampleEntry : GifEntry :=
  ⟨"a.gif", "A ten-char description.", ["x"]⟩

/-- A second sample record whose filename sorts after `sampleEntry`. -/
def sampleEntryB : GifEntry :=
  ⟨"b.gif", "Another valid description.", ["y"]⟩

/-- Five manifest entries, the shape of the C7 scenario. -/
def fiveEntries : List JVal :=
  [.obj [("filename", .str "a.gif")],
   .obj [("filename", .str "b.gif")],
   .obj [("filename", .str "c.gif")],
   .obj [("filename", .str "d.gif")],
   .obj [("filename", .str "e.gif")]]

/-- An asset directory holding 3 of the 5 listed files. -/
def threePresentFS : FS :=
  fsSet (fsSet (fsSet fsEmpty "gifs/b.gif" (.bytes [])) "gifs/c.gif"
    (.bytes [])) "gifs/d.gif" (.bytes [])

instance : IsTotal GifEntry entryLE :=
  ⟨fun a b => le_total (strLower a.filename) (strLower b.filename)⟩

instance : IsTrans GifEntry entryLE :=
  ⟨fun _ _ _ hab hbc => le_trans hab hbc⟩

-- Basic filesystem lemmas.

theorem fsSet_self (fs : FS) (p : String) (d : FileData) :
    fsSet fs p d p = some d := by
  simp [fsSet]

theorem fsSet_other (fs : FS) (p q : String) (d : FileData) (h : q ≠ p) :
    fsSet fs p d q = fs q := by
  simp [fsSet, h]

theorem fsSet_isSome (fs : FS) (p q : String) (d : FileData)
    (h : (fs q).isSome = true) : ((fsSet fs p d) q).isSome = true := by
  unfold fsSet
  by_cases hq : q = p <;> simp [hq, h]

-- Encode/decode round-trip for manifests.

theorem decodeStrings_encode (ts : List String) :
    decodeStrings (ts.map .str) = some ts := by
  induction ts with
  | nil => rfl
  | cons t ts ih => simp [decodeStrings, ih]

theorem decodeEntry_encode (e : GifEntry) :
    decodeEntry (encodeEntry e) = some e := by
  cases e with
  | mk f d t => simp [encodeEntry, decodeEntry, decodeStrings_encode]

theorem decodeEntries_encode (m : List GifEntry) :
    decodeEntries (m.map encodeEntry) = some m := by
  induction m with
  | nil => rfl
  | cons e m ih => simp [decodeEntries, decodeEntry_encode, ih]

theorem decodeManifest_encode (m : List GifEntry) :
    decodeManifest (encodeManifest m) = some m := by
  simp [encodeManifest, decodeManifest, decodeEntries_encode]

/-- C8: a response whose declared Content-Length header exceeds the 5 MB
ceiling is rejected without any write: the filesystem at exit is the input
filesystem (no body bytes reach the destination) and the run never succeeds;
when the response passes the status and content-type checks that precede the
size check, the reported error is exactly `TooLarge`. -/
theorem download_rejects_declared_oversize
    (resp : HttpResponse) (outputPath : String) (fs : FS) (n : Nat)
    (hlen : resp.contentLength = some n) (hbig : maxSizeBytes < n) :
    (download_gif resp outputPath fs).2 = fs ∧
    (download_gif resp outputPath fs).1 ≠ .ok () ∧
    (statusOk resp = true → contentTypeOk resp = true →
      (download_gif resp outputPath fs).1 = .error .tooLarge) := by
  have hd : declaredLength resp = n := by simp [declaredLength, hlen]
  by_cases hs : statusOk resp
  · by_cases hc : contentTypeOk resp
    · refine ⟨?_, ?_, fun _ _ => ?_⟩ <;> simp [download_gif, hs, hc, hd, hbig]
    · refine ⟨?_, ?_, fun _ hc2 => absurd hc2 hc⟩ <;> simp [download_gif, hs, hc]
  · refine ⟨?_, ?_, fun hs2 _ => absurd hs2 hs⟩ <;> simp [download_gif, hs]

/-- Witness for C8 at a concrete oversized response. -/
theorem download_rejects_declared_oversize_witness :
    (download_gif ⟨200, some "image/gif", some 6291456, [1]⟩ "gifs/a.gif"
        fsEmpty).2 = fsEmpty ∧
    (download_gif ⟨200, some "image/gif", some 6291456, [1]⟩ "gifs/a.gif"
        fsEmpty).1 ≠ .ok () ∧
    (statusOk ⟨200, some "image/gif", some 6291456, [1]⟩ = true →
      contentTypeOk ⟨200, some "image/gif", some 6291456, [1]⟩ = true →
      (download_gif ⟨200, some "image/gif", some 6291456, [1]⟩ "gifs/a.gif"
          fsEmpty).1 = .error .tooLarge) :=
  download_rejects_declared_oversize _ _ _ 6291456 rfl (by decide)

/-- C10: when the Content-Length header is absent the declared length is
taken to be 0, the size check passes, and the whole body — whatever its
actual length — is written to the destination. -/
theorem download_absent_length_never_limited
    (resp : HttpResponse) (outputPath : String) (fs : FS)
    (hlen : resp.contentLength = none)
    (hs : statusOk resp = true) (hc : contentTypeOk resp = true) :
    declaredLength resp = 0 ∧
    download_gif resp outputPath fs =
      (.ok (), fsSet fs outputPath (.bytes resp.body)) := by
  have hd : declaredLength resp = 0 := by simp [declaredLength, hlen]
  refine ⟨hd, ?_⟩
  simp [download_gif, hs, hc, hd, maxSizeBytes, MAX_FILE_SIZE_MB]

/-- C1 (code bug): after `download_gif` has written the asset to
`gifs/a.gif` and schema validation rejects the candidate record, the
rollback branch of `validate_entry` removes `Path(entry['filename'])` —
`"a.gif"` relative to the working directory — instead of the staging path
`GIFS_DIR / filename` = `"gifs/a.gif"` where the asset was actually
written.  The written asset therefore survives the rollback (the manifest
file is untouched, as the claim also says). -/
theorem rollback_leaves_asset_behind :
    validate_entry_fail sampleEntry
        (fsSet (fsSet fsEmpty MANIFEST_PATH (.json (encodeManifest [])))
          (gifPath "a.gif") (.bytes [7]))
        (gifPath "a.gif") = some (.bytes [7]) ∧
    validate_entry_fail sampleEntry
        (fsSet (fsSet fsEmpty MANIFEST_PATH (.json (encodeManifest [])))
          (gifPath "a.gif") (.bytes [7]))
        MANIFEST_PATH = some (.json (encodeManifest [])) := by
  exact ⟨rfl, rfl⟩

/-- C2 (code bug): ingesting a record whose filename is already in the
manifest fails with the duplicate-key exit and leaves the manifest file
byte-identical — but the newly fetched asset at `gifs/a.gif` is not
removed, because the cleanup statement removes the working-directory
relative path `"a.gif"` instead of the staging path. -/
theorem duplicate_key_leaves_asset_behind :
    (update_manifest sampleEntry MANIFEST_PATH
        (fsSet (fsSet fsEmpty MANIFEST_PATH (.json (encodeManifest [sampleEntry])))
          (gifPath "a.gif") (.bytes [7]))).1 = .error .duplicateKey ∧
    (update_manifest sampleEntry MANIFEST_PATH
        (fsSet (fsSet fsEmpty MANIFEST_PATH (.json (encodeManifest [sampleEntry])))
          (gifPath "a.gif") (.bytes [7]))).2 MANIFEST_PATH =
      some (.json (encodeManifest [sampleEntry])) ∧
    (update_manifest sampleEntry MANIFEST_PATH
        (fsSet (fsSet fsEmpty MANIFEST_PATH (.json (encodeManifest [sampleEntry])))
          (gifPath "a.gif") (.bytes [7]))).2 (gifPath "a.gif") =
      some (.bytes [7]) := by
  exact ⟨rfl, rfl, rfl⟩

/-- C5 counterexample: for the missing path `gif-schema.json` — any missing
path other than the manifest path — `load_json` fails with a not-found exit
instead of returning an empty manifest, and creates no file. -/
theorem load_absent_nonmanifest_path_fails :
    (load_json fsEmpty SCHEMA_PATH).1 = .error (.notFound SCHEMA_PATH) ∧
    (load_json fsEmpty SCHEMA_PATH).2 SCHEMA_PATH = none ∧
    ¬ (load_json fsEmpty SCHEMA_PATH).1 = .ok (.arr []) := by
  exact ⟨rfl, rfl, fun h => Except.noConfusion h⟩

/-- C5 amended: `load_json` returns an empty manifest and creates the empty
file only when the missing path is the manifest path; any other missing
path is a not-found failure and nothing is created.  Unparsable content
fails as malformed, but parsed JSON that is not a sequence is accepted and
returned as-is (`load_json` has no sequence check).  The reconciliation
loader `_load_manifest` does reject unparsable and non-array content, but
fails on a missing path instead of creating an empty manifest. -/
theorem load_json_and_load_manifest_behavior
    (fs : FS) (p : String) (v : JVal) (s : String) (xs : List JVal)
    (fields : List (String × JVal)) :
    (fs MANIFEST_PATH = none →
      load_json fs MANIFEST_PATH =
        (.ok (.arr []), fsSet fs MANIFEST_PATH (.json (.arr [])))) ∧
    (p ≠ MANIFEST_PATH → fs p = none →
      load_json fs p = (.error (.notFound p), fs)) ∧
    (fs p = some (.invalid s) → load_json fs p = (.error (.malformed p), fs)) ∧
    (fs p = some (.json v) → load_json fs p = (.ok v, fs)) ∧
    (fs p = none → load_manifest fs p = .error (.notFound p)) ∧
    (fs p = some (.invalid s) → load_manifest fs p = .error (.malformed p)) ∧
    (fs p = some (.json (.obj fields)) →
      load_manifest fs p = .error (.malformed p)) ∧
    (fs p = some (.json (.arr xs)) → load_manifest fs p = .ok xs) := by
  refine ⟨fun h => ?_, fun hne h => ?_, fun h => ?_, fun h => ?_,
    fun h => ?_, fun h => ?_, fun h => ?_, fun h => ?_⟩ <;>
    simp [load_json, load_manifest, h, *]

/-- Witness for C5's amended statement, at concrete filesystems covering
every case. -/
theorem load_json_and_load_manifest_behavior_witness :
    load_json fsEmpty MANIFEST_PATH =
      (.ok (.arr []), fsSet fsEmpty MANIFEST_PATH (.json (.arr []))) ∧
    load_json fsEmpty SCHEMA_PATH = (.error (.notFound SCHEMA_PATH), fsEmpty) ∧
    load_json (fsSet fsEmpty SCHEMA_PATH (.invalid "not json")) SCHEMA_PATH =
      (.error (.malformed SCHEMA_PATH),
       fsSet fsEmpty SCHEMA_PATH (.invalid "not json")) ∧
    load_json (fsSet fsEmpty SCHEMA_PATH (.json (.obj []))) SCHEMA_PATH =
      (.ok (.obj []), fsSet fsEmpty SCHEMA_PATH (.json (.obj []))) ∧
    load_manifest fsEmpty MANIFEST_PATH = .error (.notFound MANIFEST_PATH) ∧
    load_manifest (fsSet fsEmpty MANIFEST_PATH (.invalid "not json"))
      MANIFEST_PATH = .error (.malformed MANIFEST_PATH) ∧
    load_manifest (fsSet fsEmpty MANIFEST_PATH (.json (.obj [])))
      MANIFEST_PATH = .error (.malformed MANIFEST_PATH) ∧
    load_manifest (fsSet fsEmpty MANIFEST_PATH (.json (.arr [])))
      MANIFEST_PATH = .ok [] := by
  refine ⟨?_, ?_, ?_, ?_, ?_, ?_, ?_, ?_⟩
  · exact (load_json_and_load_manifest_behavior fsEmpty SCHEMA_PATH .null "" []
      []).1 rfl
  · exact (load_json_and_load_manifest_behavior fsEmpty SCHEMA_PATH .null "" []
      []).2.1 (by decide) rfl
  · exact (load_json_and_load_manifest_behavior
      (fsSet fsEmpty SCHEMA_PATH (.invalid "not json")) SCHEMA_PATH .null
      "not json" [] []).2.2.1 rfl
  · exact (load_json_and_load_manifest_behavior
      (fsSet fsEmpty SCHEMA_PATH (.json (.obj []))) SCHEMA_PATH (.obj []) ""
      [] []).2.2.2.1 rfl
  · exact (load_json_and_load_manifest_behavior fsEmpty MANIFEST_PATH .null ""
      [] []).2.2.2.2.1 rfl
  · exact (load_json_and_load_manifest_behavior
      (fsSet fsEmpty MANIFEST_PATH (.invalid "not json")) MANIFEST_PATH .null
      "not json" [] []).2.2.2.2.2.1 rfl
  · exact (load_json_and_load_manifest_behavior
      (fsSet fsEmpty MANIFEST_PATH (.json (.obj []))) MANIFEST_PATH .null ""
      [] []).2.2.2.2.2.2.1 rfl
  · exact (load_json_and_load_manifest_behavior
      (fsSet fsEmpty MANIFEST_PATH (.json (.arr []))) MANIFEST_PATH .null ""
      [] []).2.2.2.2.2.2.2 rfl

/-- C4 counterexample: rewriting the manifest in place passes through an
observable truncated state whose content is neither the old nor the new
manifest content, so the replacement is not atomic. -/
theorem persist_truncated_state_observable :
    ∃ s ∈ persistSteps [sampleEntry] MANIFEST_PATH
        (fsSet fsEmpty MANIFEST_PATH (.json (encodeManifest []))),
      s MANIFEST_PATH ≠
        fsSet fsEmpty MANIFEST_PATH (.json (encodeManifest [])) MANIFEST_PATH ∧
      s MANIFEST_PATH ≠ some (.json (encodeManifest [sampleEntry])) := by
  refine ⟨fsSet (fsSet fsEmpty MANIFEST_PATH (.json (encodeManifest [])))
    MANIFEST_PATH (.invalid ""), by simp [persistSteps], ?_, ?_⟩ <;>
    simp [fsSet_self, encodeManifest]

/-- C4 amended: the manifest write is deterministic (`json.dump` with
`indent=2` makes the serialized bytes a function of the manifest value, with
fixed key order and indentation) and touches no path other than the target,
and its final state holds exactly the serialized manifest; but the
replacement is not atomic: there is no temporary file and no rename — the
file is truncated in place, and whenever its previous content was not
already the empty text the truncated state is an observable intermediate
state differing from both the pre-state and the final content. -/
theorem persist_in_place_not_atomic
    (m : List GifEntry) (p : String) (fs : FS)
    (hpre : fs p ≠ some (.invalid "")) :
    (∀ s ∈ persistSteps m p fs, ∀ q, q ≠ p → s q = fs q) ∧
    (∃ sfin, (persistSteps m p fs).getLast? = some sfin ∧
      sfin p = some (.json (encodeManifest m))) ∧
    (∃ s ∈ persistSteps m p fs, s p ≠ fs p ∧
      s p ≠ some (.json (encodeManifest m))) := by
  refine ⟨?_, ⟨_, rfl, fsSet_self _ _ _⟩,
    ⟨fsSet fs p (.invalid ""), by simp [persistSteps], ?_, ?_⟩⟩
  · intro s hs q hq
    simp only [persistSteps, List.mem_cons, List.not_mem_nil, or_false] at hs
    rcases hs with h | h <;> subst h <;> simp [fsSet, hq]
  · rw [fsSet_self]
    exact fun h => hpre h.symm
  · rw [fsSet_self]
    simp

/-- Witness for C4's amended statement at a concrete manifest write. -/
theorem persist_in_place_not_atomic_witness :
    (∀ s ∈ persistSteps [sampleEntry] MANIFEST_PATH
        (fsSet fsEmpty MANIFEST_PATH (.json (encodeManifest []))),
      ∀ q, q ≠ MANIFEST_PATH →
        s q = fsSet fsEmpty MANIFEST_PATH (.json (encodeManifest [])) q) ∧
    (∃ sfin, (persistSteps [sampleEntry] MANIFEST_PATH
        (fsSet fsEmpty MANIFEST_PATH (.json (encodeManifest [])))).getLast? =
          some sfin ∧
      sfin MANIFEST_PATH = some (.json (encodeManifest [sampleEntry]))) ∧
    (∃ s ∈ persistSteps [sampleEntry] MANIFEST_PATH
        (fsSet fsEmpty MANIFEST_PATH (.json (encodeManifest []))),
      s MANIFEST_PATH ≠
        fsSet fsEmpty MANIFEST_PATH (.json (encodeManifest [])) MANIFEST_PATH ∧
      s MANIFEST_PATH ≠ some (.json (encodeManifest [sampleEntry]))) :=
  persist_in_place_not_atomic [sampleEntry] MANIFEST_PATH
    (fsSet fsEmpty MANIFEST_PATH (.json (encodeManifest [])))
    (by simp [fsSet_self, encodeManifest])

/-- C3: appending a record whose filename is not yet in the manifest
succeeds: the manifest file is rewritten with exactly the old records plus
the new one (a permutation of `m ++ [entry]`), re-sorted by lower-cased
filename, and that sorted sequence is what is persisted. -/
theorem update_manifest_appends_sorted
    (entry : GifEntry) (m : List GifEntry) (fs : FS)
    (hman : fs MANIFEST_PATH = some (.json (encodeManifest m)))
    (hnew : ∀ g ∈ m, g.filename ≠ entry.filename) :
    ∃ mfin : List GifEntry,
      update_manifest entry MANIFEST_PATH fs =
        (.ok (), fsSet fs MANIFEST_PATH (.json (encodeManifest mfin))) ∧
      mfin.Perm (m ++ [entry]) ∧
      List.Sorted entryLE mfin := by
  have hany : m.any (fun g => g.filename == entry.filename) = false := by
    simp only [List.any_eq_false]
    intro g hg
    simpa using hnew g hg
  refine ⟨sortManifest (m ++ [entry]), ?_, ?_, ?_⟩
  · simp [update_manifest, load_json, hman, decodeManifest_encode, hany]
  · exact List.perm_insertionSort entryLE (m ++ [entry])
  · exact List.sorted_insertionSort entryLE (m ++ [entry])

/-- Witness for C3 at a two-record manifest. -/
theorem update_manifest_appends_sorted_witness :
    ∃ mfin : List GifEntry,
      update_manifest sampleEntry MANIFEST_PATH
          (fsSet fsEmpty MANIFEST_PATH (.json (encodeManifest [sampleEntryB]))) =
        (.ok (), fsSet
          (fsSet fsEmpty MANIFEST_PATH (.json (encodeManifest [sampleEntryB])))
          MANIFEST_PATH (.json (encodeManifest mfin))) ∧
      mfin.Perm ([sampleEntryB] ++ [sampleEntry]) ∧
      List.Sorted entryLE mfin :=
  update_manifest_appends_sorted sampleEntry [sampleEntryB]
    (fsSet fsEmpty MANIFEST_PATH (.json (encodeManifest [sampleEntryB])))
    rfl (by decide)

/-- Witness for C10: a body far larger than the ceiling is written whole
when no Content-Length header is declared. -/
theorem download_absent_length_never_limited_witness :
    declaredLength ⟨200, some "image/gif", none, List.replicate 9000000 0⟩ = 0 ∧
    download_gif ⟨200, some "image/gif", none, List.replicate 9000000 0⟩
        "gifs/a.gif" fsEmpty =
      (.ok (), fsSet fsEmpty "gifs/a.gif" (.bytes (List.replicate 9000000 0))) :=
  download_absent_length_never_limited _ _ _ rfl (by decide) (by decide)

-- Lemmas about the reconciliation pass.

theorem generate_preserves (cfg : GenConfig) (entries : List JVal) (fs : FS)
    (p : String) (d : FileData) (h : fs p = some d) :
    (generate cfg entries fs).fs p = some d := by
  induction entries generalizing fs with
  | nil => exact h
  | cons e rest ih =>
    cases hf : entryFilename e with
    | none => simpa only [generate, hf] using ih fs h
    | some f =>
      by_cases hex : (fs (targetPath cfg f)).isSome = true
      · simpa only [generate, hf, if_pos hex] using ih fs h
      · have hne : p ≠ targetPath cfg f := by
          intro hp
          rw [← hp, h] at hex
          exact hex rfl
        have h2 : fsSet fs (targetPath cfg f) (placeholderData cfg) p = some d := by
          rw [fsSet_other _ _ _ _ hne]
          exact h
        simpa only [generate, hf, if_neg hex] using ih _ h2

theorem generate_mono (cfg : GenConfig) (entries : List JVal) (fs : FS)
    (p : String) (h : (fs p).isSome = true) :
    ((generate cfg entries fs).fs p).isSome = true := by
  obtain ⟨d, hd⟩ := Option.isSome_iff_exists.mp h
  rw [generate_preserves cfg entries fs p d hd]
  rfl

theorem generate_covers (cfg : GenConfig) (entries : List JVal) (fs : FS)
    (e : JVal) (f : String) (he : e ∈ entries) (hf : entryFilename e = some f) :
    ((generate cfg entries fs).fs (targetPath cfg f)).isSome = true := by
  induction entries generalizing fs with
  | nil => cases he
  | cons a rest ih =>
    rcases List.mem_cons.mp he with rfl | hmem
    · by_cases hex : (fs (targetPath cfg f)).isSome = true
      · simpa only [generate, hf, if_pos hex] using
          generate_mono cfg rest fs (targetPath cfg f) hex
      · have hset : ((fsSet fs (targetPath cfg f) (placeholderData cfg))
            (targetPath cfg f)).isSome = true := by
          rw [fsSet_self]
          rfl
        simpa only [generate, hf, if_neg hex] using
          generate_mono cfg rest _ (targetPath cfg f) hset
    · cases hfa : entryFilename a with
      | none => simpa only [generate, hfa] using ih fs hmem
      | some g =>
        by_cases hex : (fs (targetPath cfg g)).isSome = true
        · simpa only [generate, hfa, if_pos hex] using ih fs hmem
        · simpa only [generate, hfa, if_neg hex] using ih _ hmem

theorem generate_covered_stable (cfg : GenConfig) (entries : List JVal)
    (fs : FS)
    (h : ∀ e ∈ entries, ∀ f, entryFilename e = some f →
      (fs (targetPath cfg f)).isSome = true) :
    (generate cfg entries fs).created = [] ∧
    (generate cfg entries fs).fs = fs ∧
    (generate cfg entries fs).skipped = entries.filterMap entryFilename := by
  induction entries generalizing fs with
  | nil => exact ⟨rfl, rfl, rfl⟩
  | cons e rest ih =>
    have hrest : ∀ a ∈ rest, ∀ f, entryFilename a = some f →
        (fs (targetPath cfg f)).isSome = true :=
      fun a ha f hf => h a (List.mem_cons_of_mem e ha) f hf
    obtain ⟨h1, h2, h3⟩ := ih fs hrest
    cases hf : entryFilename e with
    | none =>
      refine ⟨?_, ?_, ?_⟩ <;>
        simp only [generate, hf, h1, h2, h3, List.filterMap_cons_none hf]
    | some f =>
      have hex : (fs (targetPath cfg f)).isSome = true :=
        h e (List.mem_cons_self e rest) f hf
      refine ⟨?_, ?_, ?_⟩ <;>
        simp only [generate, hf, if_pos hex, h1, h2, h3,
          List.filterMap_cons_some hf]

theorem generate_created_append_skipped_perm (cfg : GenConfig)
    (entries : List JVal) (fs : FS) :
    ((generate cfg entries fs).created ++ (generate cfg entries fs).skipped).Perm
      (entries.filterMap entryFilename) := by
  induction entries generalizing fs with
  | nil => simp [generate]
  | cons e rest ih =>
    cases hf : entryFilename e with
    | none =>
      rw [List.filterMap_cons_none hf]
      simpa only [generate, hf] using ih fs
    | some f =>
      rw [List.filterMap_cons_some hf]
      by_cases hex : (fs (targetPath cfg f)).isSome = true
      · have step : ((generate cfg rest fs).created ++
            f :: (generate cfg rest fs).skipped).Perm
            (f :: ((generate cfg rest fs).created ++
              (generate cfg rest fs).skipped)) := List.perm_middle
        simpa only [generate, hf, if_pos hex] using step.trans ((ih fs).cons f)
      · have step := (ih (fsSet fs (targetPath cfg f) (placeholderData cfg))).cons f
        simpa only [generate, hf, if_neg hex, List.cons_append] using step

/-- C6: the reconciliation pass is idempotent — a second run over the same
manifest and the asset directory the first run produced creates nothing,
changes no file, and records as skipped exactly the files the first run
created or found present. -/
theorem generate_idempotent (cfg : GenConfig) (entries : List JVal) (fs : FS) :
    (generate cfg entries (generate cfg entries fs).fs).created = [] ∧
    (generate cfg entries (generate cfg entries fs).fs).fs =
      (generate cfg entries fs).fs ∧
    (generate cfg entries (generate cfg entries fs).fs).skipped.Perm
      ((generate cfg entries fs).created ++ (generate cfg entries fs).skipped) := by
  have hcov : ∀ e ∈ entries, ∀ f, entryFilename e = some f →
      ((generate cfg entries fs).fs (targetPath cfg f)).isSome = true :=
    fun e he f hf => generate_covers cfg entries fs e f he hf
  obtain ⟨h1, h2, h3⟩ := generate_covered_stable cfg entries _ hcov
  refine ⟨h1, h2, ?_⟩
  rw [h3]
  exact (generate_created_append_skipped_perm cfg entries fs).symm

theorem targetPath_inj (cfg : GenConfig) (a b : String)
    (h : targetPath cfg a = targetPath cfg b) : a = b := by
  have hd := congrArg String.data h
  simp only [targetPath, String.data_append] at hd
  have hab : a.data = b.data := List.append_cancel_left hd
  cases a
  cases b
  exact congrArg String.mk hab

theorem entryFilename_gif (e : JVal) (f : String)
    (h : entryFilename e = some f) : f ≠ "" ∧ strEndsWith f ".gif" = true := by
  cases hg : getField e "filename" with
  | none => simp [entryFilename, hg] at h
  | some v =>
    cases v with
    | null => simp [entryFilename, hg] at h
    | bool b => simp [entryFilename, hg] at h
    | num n => simp [entryFilename, hg] at h
    | arr xs => simp [entryFilename, hg] at h
    | obj fields => simp [entryFilename, hg] at h
    | str s =>
      simp only [entryFilename, hg] at h
      split at h
      · rename_i hcond
        cases h
        exact hcond
      · cases h

theorem generate_classifies (cfg : GenConfig) (entries : List JVal) (fs : FS)
    (hnodup : (entries.filterMap entryFilename).Nodup) :
    (generate cfg entries fs).malformed =
      entries.filter (fun e => (entryFilename e).isNone) ∧
    (generate cfg entries fs).created =
      (entries.filterMap entryFilename).filter
        (fun f => (fs (targetPath cfg f)).isNone) ∧
    (generate cfg entries fs).skipped =
      (entries.filterMap entryFilename).filter
        (fun f => (fs (targetPath cfg f)).isSome) := by
  induction entries generalizing fs with
  | nil => exact ⟨rfl, rfl, rfl⟩
  | cons e rest ih =>
    cases hf : entryFilename e with
    | none =>
      have hnd : (rest.filterMap entryFilename).Nodup := by
        rwa [List.filterMap_cons_none hf] at hnodup
      obtain ⟨h1, h2, h3⟩ := ih fs hnd
      refine ⟨?_, ?_, ?_⟩ <;>
        simp [generate, hf, h1, h2, h3, List.filterMap_cons_none hf]
    | some f =>
      rw [List.filterMap_cons_some hf] at hnodup
      have hmemf : f ∉ rest.filterMap entryFilename :=
        (List.nodup_cons.mp hnodup).1
      have hnd : (rest.filterMap entryFilename).Nodup :=
        (List.nodup_cons.mp hnodup).2
      by_cases hex : (fs (targetPath cfg f)).isSome = true
      · obtain ⟨d, hd⟩ := Option.isSome_iff_exists.mp hex
        obtain ⟨h1, h2, h3⟩ := ih fs hnd
        refine ⟨?_, ?_, ?_⟩ <;>
          simp [generate, hf, hex, h1, h2, h3,
            List.filterMap_cons_some hf, hd]
      · have hn : fs (targetPath cfg f) = none :=
          Option.not_isSome_iff_eq_none.mp hex
        obtain ⟨h1, h2, h3⟩ :=
          ih (fsSet fs (targetPath cfg f) (placeholderData cfg)) hnd
        have hagree : ∀ g ∈ rest.filterMap entryFilename,
            fsSet fs (targetPath cfg f) (placeholderData cfg)
              (targetPath cfg g) = fs (targetPath cfg g) := by
          intro g hg
          have hgf : g ≠ f := fun hq => hmemf (hq ▸ hg)
          exact fsSet_other _ _ _ _
            (fun hq => hgf (targetPath_inj cfg g f hq))
        have hcre : (rest.filterMap entryFilename).filter
            (fun g => (fsSet fs (targetPath cfg f) (placeholderData cfg)
              (targetPath cfg g)).isNone) =
            (rest.filterMap entryFilename).filter
            (fun g => (fs (targetPath cfg g)).isNone) :=
          List.filter_congr (fun g hg => by rw [hagree g hg])
        have hskp : (rest.filterMap entryFilename).filter
            (fun g => (fsSet fs (targetPath cfg f) (placeholderData cfg)
              (targetPath cfg g)).isSome) =
            (rest.filterMap entryFilename).filter
            (fun g => (fs (targetPath cfg g)).isSome) :=
          List.filter_congr (fun g hg => by rw [hagree g hg])
        refine ⟨?_, ?_, ?_⟩ <;>
          simp [generate, hf, hex, h1, h2, h3, hcre, hskp,
            List.filterMap_cons_some hf, hn]

theorem generate_created_content (cfg : GenConfig) (entries : List JVal)
    (fs : FS) :
    ∀ f ∈ (generate cfg entries fs).created,
      (generate cfg entries fs).fs (targetPath cfg f) =
        some (placeholderData cfg) := by
  induction entries generalizing fs with
  | nil => intro g hg; cases hg
  | cons e rest ih =>
    cases hf : entryFilename e with
    | none =>
      intro g hg
      simp only [generate, hf] at hg ⊢
      exact ih fs g hg
    | some f =>
      by_cases hex : (fs (targetPath cfg f)).isSome = true
      · intro g hg
        simp only [generate, hf, if_pos hex] at hg ⊢
        exact ih fs g hg
      · intro g hg
        simp only [generate, hf, if_neg hex] at hg ⊢
        rcases List.mem_cons.mp hg with rfl | hg2
        · exact generate_preserves cfg rest _ _ _ (fsSet_self _ _ _)
        · exact ih _ g hg2

/-- C7: the reconciliation pass classifies every manifest entry into exactly
one of three groups: `malformed` collects the entries without a usable
filename (missing, empty, or lacking the `.gif` extension), `created`
collects the filenames whose target asset was absent (each such target then
holds the fill strategy's placeholder content), and `skipped` collects the
filenames whose target asset already existed.  The integer the source
returns is `created.length`.  (Stated for manifests without duplicate
filenames.) -/
theorem generate_report (cfg : GenConfig) (entries : List JVal) (fs : FS)
    (hnodup : (entries.filterMap entryFilename).Nodup) :
    (generate cfg entries fs).malformed =
      entries.filter (fun e => (entryFilename e).isNone) ∧
    (generate cfg entries fs).created =
      (entries.filterMap entryFilename).filter
        (fun f => (fs (targetPath cfg f)).isNone) ∧
    (generate cfg entries fs).skipped =
      (entries.filterMap entryFilename).filter
        (fun f => (fs (targetPath cfg f)).isSome) ∧
    generateCount cfg entries fs =
      ((entries.filterMap entryFilename).filter
        (fun f => (fs (targetPath cfg f)).isNone)).length ∧
    ∀ f ∈ (generate cfg entries fs).created,
      (generate cfg entries fs).fs (targetPath cfg f) =
        some (placeholderData cfg) := by
  obtain ⟨h1, h2, h3⟩ := generate_classifies cfg entries fs hnodup
  refine ⟨h1, h2, h3, ?_, generate_created_content cfg entries fs⟩
  rw [generateCount, h2]

/-- Witness for C7: with 2 of 5 manifest-listed files missing, the report
has `created` of length 2 and `skipped` of length 3, and the returned count
is 2. -/
theorem generate_report_witness :
    (generate ⟨"gifs", true⟩ fiveEntries threePresentFS).created.length = 2 ∧
    (generate ⟨"gifs", true⟩ fiveEntries threePresentFS).skipped.length = 3 ∧
    (generate ⟨"gifs", true⟩ fiveEntries threePresentFS).malformed.length = 0 ∧
    generateCount ⟨"gifs", true⟩ fiveEntries threePresentFS = 2 := by
  obtain ⟨h1, h2, h3, h4, h5⟩ :=
    generate_report ⟨"gifs", true⟩ fiveEntries threePresentFS (by decide)
  refine ⟨?_, ?_, ?_, ?_⟩
  · rw [h2]; rfl
  · rw [h3]; rfl
  · rw [h1]; rfl
  · rw [h4]; rfl

/-- C9: the reconciliation pass never touches an existing file — in
particular the manifest file it read is byte-identical after the pass — and
the only paths it changes are missing `.gif` targets inside the asset
directory, which it creates with the placeholder content.  (It never
mutates the in-memory manifest entries either: `generate` only reads
`entries`.) -/
theorem generate_frame (cfg : GenConfig) (entries : List JVal) (fs : FS)
    (p : String) (hchg : (generate cfg entries fs).fs p ≠ fs p) :
    fs p = none ∧
    (generate cfg entries fs).fs p = some (placeholderData cfg) ∧
    ∃ f, f ∈ entries.filterMap entryFilename ∧ p = targetPath cfg f ∧
      strEndsWith f ".gif" = true := by
  induction entries generalizing fs with
  | nil => exact absurd rfl hchg
  | cons e rest ih =>
    cases hf : entryFilename e with
    | none =>
      simp only [generate, hf] at hchg ⊢
      obtain ⟨h1, h2, g, hmem, hp, hgif⟩ := ih fs hchg
      exact ⟨h1, h2, g,
        by rw [List.filterMap_cons_none hf]; exact hmem, hp, hgif⟩
    | some f =>
      by_cases hex : (fs (targetPath cfg f)).isSome = true
      · simp only [generate, hf, if_pos hex] at hchg ⊢
        obtain ⟨h1, h2, g, hmem, hp, hgif⟩ := ih fs hchg
        refine ⟨h1, h2, g, ?_, hp, hgif⟩
        rw [List.filterMap_cons_some hf]
        exact List.mem_cons_of_mem f hmem
      · have hn : fs (targetPath cfg f) = none :=
          Option.not_isSome_iff_eq_none.mp hex
        simp only [generate, hf, if_neg hex] at hchg ⊢
        by_cases hq : (generate cfg rest (fsSet fs (targetPath cfg f)
            (placeholderData cfg))).fs p =
            fsSet fs (targetPath cfg f) (placeholderData cfg) p
        · rw [hq] at hchg ⊢
          by_cases hp : p = targetPath cfg f
          · subst hp
            refine ⟨hn, fsSet_self _ _ _, f, ?_, rfl,
              (entryFilename_gif e f hf).2⟩
            rw [List.filterMap_cons_some hf]
            exact List.mem_cons_self _ _
          · exact absurd (fsSet_other _ _ _ _ hp) hchg
        · obtain ⟨h1, h2, g, hmem, hp, hgif⟩ := ih _ hq
          have hpf : p ≠ targetPath cfg f := by
            intro hpe
            rw [hpe, fsSet_self] at h1
            cases h1
          rw [fsSet_other _ _ _ _ hpf] at h1
          refine ⟨h1, h2, g, ?_, hp, hgif⟩
          rw [List.filterMap_cons_some hf]
          exact List.mem_cons_of_mem f hmem

/-- Witness for C9: a concrete run that created `gifs/a.gif`, shown to have
found it absent, written the placeholder, and targeted a `.gif` path. -/
theorem generate_frame_witness :
    threePresentFS "gifs/a.gif" = none ∧
    (generate ⟨"gifs", true⟩ fiveEntries threePresentFS).fs "gifs/a.gif" =
      some (placeholderData ⟨"gifs", true⟩) ∧
    ∃ f, f ∈ fiveEntries.filterMap entryFilename ∧
      "gifs/a.gif" = targetPath ⟨"gifs", true⟩ f ∧
      strEndsWith f ".gif" = true :=
  generate_frame ⟨"gifs", true⟩ fiveEntries threePresentFS "gifs/a.gif"
    (fun hcon => Option.noConfusion hcon)
